import Mathlib

/-!
Shallow embedding of `src/earthdata_download/src/download.py`
(`EarthDataDownloader`): state, filesystem and network model, and the
operations `download_file`, `download_granule`,
`_download_granules_parallel`, `download_collection`,
`check_missing_granules`, `retry_failed_granules`.

Machine state is explicit: the in-memory completed set and error map,
their persisted snapshots (the two state files), the downloaded files
(path → size), the set of created directories, the authentication flag
of the shared `EarthDataAuth` object, the `missing_granules.json` side
file, and a trace of the URLs actually requested over the network.

The environment holds the oracles: the outcome of the HTTP transfer for
each URL (`requests` exceptions, HTTP error statuses and disk-write
errors during the streamed copy all surface as one exception in the
`try` block of `download_file`, modelled as `NetResult.err`), whether
`mkdir` raises for a given directory (it is outside every `try` block in
the source), and whether `EarthDataAuth.authenticate()` succeeds.
-/

namespace EDD

/-- Outcome of the streamed HTTP transfer of one URL (the body of the
`try` block at `download.py:171-190`): either the whole file is written
with `size` bytes, or an exception with message `msg` is raised
(network error, `raise_for_status`, or a disk-write error). -/
inductive NetResult where
  | ok (size : Nat)
  | err (msg : String)
deriving DecidableEq

/-- External oracles: per-URL transfer outcome, per-directory `mkdir`
failure (`some msg` means `Path.mkdir` raises `msg`), the result of
`EarthDataAuth.authenticate()`, the partial write left behind when a
transfer fails (`partWrite url = some n` means the destination had been
(re)created and held `n` bytes when the exception was raised; `none`
means the exception came before the destination was opened), and
whether `filepath.unlink()` itself raises for a given file — the source
swallows that failure (`download.py:198-201`, `except Exception: pass`),
leaving the file behind. -/
structure Env where
  net : String → NetResult
  mkdirErr : String → Option String
  authWorks : Bool
  partWrite : String → Option Nat
  unlinkErr : (String × String) → Bool

/-- Machine state of one `EarthDataDownloader` plus the filesystem.
Files are keyed by (granule directory name, filename); sizes in bytes.
`saved*` are the contents of the two persisted state files,
`missingFile` the content of `missing_granules.json` when it exists,
`trace` the list of URLs for which a network request was issued. -/
structure St where
  completed : List String
  errored : List (String × String)
  fs : List ((String × String) × Nat)
  dirs : List String
  authed : Bool
  savedCompleted : List String
  savedErrored : List (String × String)
  missingFile : Option (List String)
  trace : List String
deriving DecidableEq

/-- Association-list lookup (Python `dict` access / `in`). -/
def lookA {α β : Type} [DecidableEq α] : List (α × β) → α → Option β
  | [], _ => none
  | p :: rest, k => if p.1 = k then some p.2 else lookA rest k

/-- Association-list update (Python `d[k] = v`): replace in place if the
key is present, else append. -/
def updateA {α β : Type} [DecidableEq α] : List (α × β) → α → β → List (α × β)
  | [], k, v => [(k, v)]
  | p :: rest, k, v => if p.1 = k then (k, v) :: rest else p :: updateA rest k v

/-- Filesystem write of a whole file (create or overwrite). -/
def fsPut (fs : List ((String × String) × Nat)) (k : String × String) (n : Nat) :
    List ((String × String) × Nat) :=
  updateA fs k n

/-- Filesystem `unlink` (no-op if the file is absent, as in the guarded
deletion at `download.py:197-201`). -/
def fsDel (fs : List ((String × String) × Nat)) (k : String × String) :
    List ((String × String) × Nat) :=
  fs.filter (fun e => e.1 ≠ k)

/-- Python `set.add`. -/
def addSet (c : List String) (x : String) : List String :=
  if x ∈ c then c else c ++ [x]

/-- `_save_state` (`download.py:121-141`): rewrite both state files from
the in-memory structures. -/
def saveState (s : St) : St :=
  { s with savedCompleted := s.completed, savedErrored := s.errored }

/-- `url.split("/")[-1]` (`download.py:158`): the part of the URL after
its last `/` (the whole URL if it has none). -/
def lastSeg (url : String) : String :=
  ⟨url.data.foldl (fun acc c => if c = '/' then [] else acc ++ [c]) []⟩

/-- `mkdir(parents=True, exist_ok=True)` on directory `d`: succeeds
silently if the directory exists, otherwise either creates it or raises
per the environment oracle. -/
def mkdirD (env : Env) (d : String) (s : St) : (Except String Unit) × St :=
  if d ∈ s.dirs then (.ok (), s)
  else
    match env.mkdirErr d with
    | some m => (.error m, s)
    | none => (.ok (), { s with dirs := d :: s.dirs })

/-- The filesystem after the `except` block of `download_file`
(`download.py:192-203`) for a failed transfer of `url` into file `k`:
first the partial write (if the destination had been opened), then
`if filepath.exists(): try: filepath.unlink() except Exception: pass` —
the deletion is only attempted, and when `unlink` raises the file stays
with its partial content. -/
def errCleanupFs (env : Env) (url : String) (fs : List ((String × String) × Nat))
    (k : String × String) : List ((String × String) × Nat) :=
  let fs1 :=
    match env.partWrite url with
    | some n => fsPut fs k n
    | none => fs
  if (lookA fs1 k).isSome then
    if env.unlinkErr k then fs1 else fsDel fs1 k
  else fs1

/-- Body of `download_file` after the `mkdir` (`download.py:157-203`):
skip-if-present, authentication check, then the streamed transfer with
attempted partial-file cleanup on failure.  Result
`.ok (flag, pathOrError)` mirrors the Python return value; `.error` is
an uncaught exception. -/
def downloadFileBody (env : Env) (gname url : String) (s : St) :
    (Except String (Bool × String)) × St :=
  let filename := lastSeg url
  let fpath := gname ++ "/" ++ filename
  if 0 < ((lookA s.fs (gname, filename)).getD 0) then
    (.ok (true, fpath), s)
  else if ¬ s.authed ∧ ¬ env.authWorks then
    (.ok (false, "Authentication failed"), s)
  else
    let s1 := { s with authed := true, trace := s.trace ++ [url] }
    match env.net url with
    | .ok sz =>
        (.ok (true, fpath), { s1 with fs := fsPut s1.fs (gname, filename) sz })
    | .err m =>
        (.ok (false, "Failed to download " ++ url ++ ": " ++ m),
         { s1 with fs := errCleanupFs env url s1.fs (gname, filename) })

/-- `download_file(url, target_dir)` (`download.py:143-203`), with
`target_dir` the granule directory `gname`.  The initial
`target_dir.mkdir` (`download.py:155`) is outside the `try` block, so
its failure propagates as `.error`. -/
def downloadFile (env : Env) (gname url : String) (s : St) :
    (Except String (Bool × String)) × St :=
  match mkdirD env gname s with
  | (.error m, s') => (.error m, s')
  | (.ok _, s') => downloadFileBody env gname url s'

/-- The per-URL loop of `download_granule` (`download.py:232-261`): on
the first failed URL, record the granule in the error map with the
fetcher's error string, persist state and stop; if every URL succeeds,
add the granule to the completed set and persist state. -/
def dgLoop (env : Env) (gname : String) : List String → St → (Except String Bool) × St
  | [], s =>
      (.ok true, saveState { s with completed := addSet s.completed gname })
  | url :: rest, s =>
      match downloadFile env gname url s with
      | (.error m, s') => (.error m, s')
      | (.ok (true, _), s') => dgLoop env gname rest s'
      | (.ok (false, msg), s') =>
          (.ok false, saveState { s' with errored := updateA s'.errored gname msg })

/-- `download_granule(granule_name, urls)` (`download.py:205-261`):
empty-URL check, completed-set skip, granule-directory creation
(`download.py:226-227`, outside any `try`), then the URL loop. -/
def downloadGranule (env : Env) (gname : String) (urls : List String) (s : St) :
    (Except String Bool) × St :=
  if urls = [] then (.ok false, s)
  else if gname ∈ s.completed then (.ok true, s)
  else
    match mkdirD env gname s with
    | (.error m, s') => (.error m, s')
    | (.ok _, s') => dgLoop env gname urls s'

/-- Statistics record of `_download_granules_parallel`
(`download.py:332-337`); `authError` models the presence of the
`"error": "Authentication failed"` key. -/
structure MStats where
  total : Nat
  succeeded : Nat
  failed : Nat
  authError : Bool
deriving DecidableEq

/-- Handling of one completed future (`download.py:304-324`): a normal
result increments the matching counter; an exception raised by the task
counts as a failure and is recorded in the error map. -/
def schedStep (env : Env) (acc : (Nat × Nat) × St) (g : String × List String) :
    (Nat × Nat) × St :=
  match downloadGranule env g.1 g.2 acc.2 with
  | (.ok true, s') => ((acc.1.1 + 1, acc.1.2), s')
  | (.ok false, s') => ((acc.1.1, acc.1.2 + 1), s')
  | (.error m, s') =>
      ((acc.1.1, acc.1.2 + 1), { s' with errored := updateA s'.errored g.1 m })

/-- `_download_granules_parallel(granules_to_download)`
(`download.py:263-337`): empty-input short-circuit, up-front
authentication (fail-all on failure), then one task per granule whose
outcomes are aggregated.  The worker-pool size `mw` bounds concurrency
only and does not influence outcomes; the task list `gs` is given in
completion order. -/
def downloadMany (env : Env) (_mw : Nat) (gs : List (String × List String)) (s : St) :
    MStats × St :=
  if gs = [] then (⟨0, 0, 0, false⟩, s)
  else if ¬ s.authed ∧ ¬ env.authWorks then
    (⟨gs.length, 0, gs.length, true⟩, s)
  else
    let acc := gs.foldl (schedStep env) ((0, 0), { s with authed := true })
    (⟨gs.length, acc.1.1, acc.1.2, false⟩, acc.2)

/-- Statistics record of `download_collection` (`download.py:349-425`);
size and elapsed-time fields are logging-only and omitted. -/
structure CollStats where
  total : Nat
  completed : Nat
  failed : Nat
  authError : Bool
deriving DecidableEq

/-- `download_collection(collection_payload)` (`download.py:339-425`):
empty-payload short-circuit, authentication, filtering of
already-completed granules, parallel download of the remainder, and
final counts drawn from the full cumulative state. -/
def downloadCollection (env : Env) (mw : Nat)
    (payload : List (String × List (String × List String))) (s : St) :
    CollStats × St :=
  match payload with
  | [] => (⟨0, 0, 0, false⟩, s)
  | (_, granules) :: _ =>
    if ¬ s.authed ∧ ¬ env.authWorks then (⟨0, 0, 0, true⟩, s)
    else
      let s0 := { s with authed := true }
      let remaining := granules.filter (fun p => decide (p.1 ∉ s0.completed))
      if remaining = [] then (⟨granules.length, granules.length, 0, false⟩, s0)
      else
        let r := downloadMany env mw remaining s0
        let s2 := saveState r.2
        (⟨granules.length, s2.completed.length, s2.errored.length, false⟩, s2)

/-- Statistics record of `check_missing_granules` (`download.py:585-590`). -/
structure CMStats where
  total : Nat
  missing : Nat
  downloaded : Nat
  failed : Nat
deriving DecidableEq

/-- The per-granule missingness test of `check_missing_granules`
(`download.py:502-535`): the granule directory does not exist, is empty,
or lacks a non-empty file for some URL's derived filename. -/
def granuleIsMissing (s : St) (gname : String) (urls : List String) : Bool :=
  if gname ∉ s.dirs then true
  else
    let files := s.fs.filter (fun e => decide (e.1.1 = gname))
    if files = [] then true
    else
      let actual := (files.filter (fun e => decide (0 < e.2))).map (fun e => e.1.2)
      ¬ (urls.map lastSeg).all (fun f => decide (f ∈ actual))

/-- The recomputed missing-granule list (`download.py:502-535`). -/
def computeMissing (s : St) (granules : List (String × List String)) : List String :=
  (granules.filter (fun p => granuleIsMissing s p.1 p.2)).map (fun p => p.1)

/-- The dict comprehension `{name: granules[name] for name in missing if
name in granules}` (`download.py:571-573`). -/
def dictComp (names : List String) (granules : List (String × List String)) :
    List (String × List String) :=
  names.foldl
    (fun acc n =>
      match lookA granules n with
      | some urls => updateA acc n urls
      | none => acc) []

/-- `check_missing_granules(collection_payload, download_missing)`
(`download.py:458-590`): if the side file exists its list is reused and
no state is touched in the checking phase; otherwise the missing list is
recomputed, written to the side file, and newly missing granules are
evicted from the completed set (state persisted only when at least one
eviction happened).  If healing is requested the missing granules found
in the payload are re-submitted to the parallel scheduler. -/
def checkMissing (env : Env) (mw : Nat)
    (payload : List (String × List (String × List String)))
    (downloadMissing : Bool) (s : St) : CMStats × St :=
  match payload with
  | [] => (⟨0, 0, 0, 0⟩, s)
  | (_, granules) :: _ =>
    let checked :=
      match s.missingFile with
      | some lst => (lst, s)
      | none =>
        let m := computeMissing s granules
        let sA := { s with missingFile := some m }
        let sB :=
          if m.any (fun n => decide (n ∈ sA.completed)) then
            saveState { sA with completed := sA.completed.filter (fun n => decide (n ∉ m)) }
          else sA
        (m, sB)
    let missing := checked.1
    let s1 := checked.2
    if downloadMissing ∧ missing ≠ [] then
      let r := downloadMany env mw (dictComp missing granules) s1
      (⟨granules.length, missing.length, r.1.succeeded, r.1.failed⟩, r.2)
    else
      (⟨granules.length, missing.length, 0, 0⟩, s1)

/-- Statistics record of `retry_failed_granules` (`download.py:642-647`). -/
structure RStats where
  retried : Nat
  succeeded : Nat
  failed : Nat
deriving DecidableEq

/-- The granules selected for retry (`download.py:610-614`): those of the
payload's granule map that have an error-map entry. -/
def retryGranules (granules : List (String × List String))
    (errored : List (String × String)) : List (String × List String) :=
  granules.filter (fun p => (lookA errored p.1).isSome)

/-- The state from which the retry's downloads are dispatched
(`download.py:622-627`): error entries of the retried granules deleted,
then state persisted. -/
def retryDispatchState (s : St) (retryG : List (String × List String)) : St :=
  saveState
    { s with errored := s.errored.filter (fun q => (lookA retryG q.1).isNone) }

/-- `retry_failed_granules(collection_payload)` (`download.py:592-647`):
no-op on an empty error map; `list(collection_payload.keys())[0]` raises
`IndexError` on an empty payload; otherwise clear-and-persist the error
entries of the retried granules, then re-dispatch them. -/
def retryFailed (env : Env) (mw : Nat)
    (payload : List (String × List (String × List String))) (s : St) :
    (Except String RStats) × St :=
  if s.errored = [] then (.ok ⟨0, 0, 0⟩, s)
  else
    match payload with
    | [] => (.error "IndexError", s)
    | (_, granules) :: _ =>
      let retryG := retryGranules granules s.errored
      if retryG = [] then (.ok ⟨0, 0, 0⟩, s)
      else
        let s2 := retryDispatchState s retryG
        let r := downloadMany env mw retryG s2
        (.ok ⟨retryG.length, r.1.succeeded, r.1.failed⟩, r.2)

/-- A file of granule `g` named `fn` exists on disk with non-zero size. -/
def fileOk (s : St) (g fn : String) : Prop :=
  ∃ n, lookA s.fs (g, fn) = some n ∧ 0 < n

/-- Atomic-granule-success invariant: completed-set membership implies
every URL's derived file exists on disk with non-zero size. -/
def granuleInv (granules : List (String × List String)) (s : St) : Prop :=
  ∀ g urls, (g, urls) ∈ granules → g ∈ s.completed →
    ∀ u ∈ urls, fileOk s g (lastSeg u)

/-- State-disjointness invariant: no granule name is simultaneously in
the completed set and a key of the error map. -/
def disjointInv (s : St) : Prop :=
  ∀ g, g ∈ s.completed → lookA s.errored g = none

/-- Environment in which every transfer succeeds with an empty body
(zero bytes written), every `mkdir` succeeds, and authentication works. -/
def envZero : Env := ⟨fun _ => .ok 0, fun _ => none, true, fun _ => none, fun _ => false⟩

/-- Environment in which every transfer succeeds with a one-byte body. -/
def envOne : Env := ⟨fun _ => .ok 1, fun _ => none, true, fun _ => none, fun _ => false⟩

/-- Environment in which fetching `h/B` fails with message `boom` and
every other transfer succeeds with a seven-byte body. -/
def envB : Env :=
  ⟨fun u => if u = "h/B" then .err "boom" else .ok 7, fun _ => none, true,
   fun _ => none, fun _ => false⟩

/-- Environment in which every `mkdir` raises `PermissionError`. -/
def envMkdirFail : Env :=
  ⟨fun _ => .ok 1, fun _ => some "PermissionError", true, fun _ => none, fun _ => false⟩

/-- Environment in which every transfer fails mid-write after 3 bytes
(for example the disk filling up) and the subsequent `unlink` of the
partial file also raises (and is swallowed by the source). -/
def envDiskFull : Env :=
  ⟨fun _ => .err "No space left on device", fun _ => none, true,
   fun _ => some 3, fun _ => true⟩

/-- Fresh downloader state: nothing completed, nothing errored, empty
filesystem, authenticated. -/
def stEmpty : St := ⟨[], [], [], [], true, [], [], none, []⟩

/-- Fresh state in which the granule directory `g` already exists. -/
def stDirs : St := ⟨[], [], [], ["g"], true, [], [], none, []⟩

/-- State whose completed set already contains granule `g`. -/
def stDone : St := ⟨["g"], [], [], [], true, [], [], none, []⟩

/-- State with a stale error-map entry for granule `g` (for example
loaded from a previous run's error file) and `g` not yet completed. -/
def stStale : St := ⟨[], [("g", "old")], [], [], true, [], [], none, []⟩

/-- State with a pre-existing `missing_granules.json` listing granule
`g`, `g` still being in the completed set. -/
def stSide : St := ⟨["g"], [], [], [], true, [], [], some ["g"], []⟩

/-- A payload with a single collection `X` holding granules `g` and
`h2`. -/
def payloadX : List (String × List (String × List String)) :=
  [("X", [("g", ["h/f"]), ("h2", ["h/z"])])]

section AssocLemmas

variable {α β : Type} [DecidableEq α]

theorem lookA_updateA_self (m : List (α × β)) (k : α) (v : β) :
    lookA (updateA m k v) k = some v := by
  induction m with
  | nil => simp [updateA, lookA]
  | cons p rest ih =>
    by_cases h : p.1 = k
    · simp [updateA, h, lookA]
    · simp [updateA, h, lookA, ih]

theorem lookA_updateA_ne (m : List (α × β)) (k k' : α) (v : β) (h : k' ≠ k) :
    lookA (updateA m k v) k' = lookA m k' := by
  have h' : ¬ (k = k') := fun e => h e.symm
  induction m with
  | nil => simp [updateA, lookA, h']
  | cons p rest ih =>
    by_cases hp : p.1 = k
    · subst hp; simp [updateA, lookA, h']
    · simp only [updateA, if_neg hp, lookA]
      by_cases hk : p.1 = k'
      · simp [hk]
      · simp [hk, ih]

end AssocLemmas

theorem lookA_fsPut_self (fs : List ((String × String) × Nat)) (k : String × String)
    (n : Nat) : lookA (fsPut fs k n) k = some n :=
  lookA_updateA_self fs k n

theorem lookA_fsPut_ne (fs : List ((String × String) × Nat)) (k k' : String × String)
    (n : Nat) (h : k' ≠ k) : lookA (fsPut fs k n) k' = lookA fs k' :=
  lookA_updateA_ne fs k k' n h

theorem lookA_fsDel (fs : List ((String × String) × Nat)) (k k' : String × String) :
    lookA (fsDel fs k) k' = if k' = k then none else lookA fs k' := by
  induction fs with
  | nil => simp [fsDel, lookA]
  | cons p rest ih =>
    simp only [fsDel] at ih ⊢
    by_cases hp : p.1 = k
    · rw [List.filter_cons, if_neg (by simp [hp])]
      rw [ih]
      by_cases hk : k' = k
      · simp [hk]
      · have h3 : ¬ (p.1 = k') := fun e => hk (by rw [← e, hp])
        simp [hk, lookA, h3]
    · rw [List.filter_cons, if_pos (by simp [hp])]
      by_cases hk : p.1 = k'
      · have hk2 : ¬ (k' = k) := fun e => hp (by rw [hk, e])
        simp [lookA, hk, hk2]
      · simp only [lookA, if_neg hk]
        simpa using ih

theorem lookA_errCleanupFs_ne (env : Env) (u : String)
    (fs : List ((String × String) × Nat)) (k k' : String × String) (h : k' ≠ k) :
    lookA (errCleanupFs env u fs k) k' = lookA fs k' := by
  unfold errCleanupFs
  rcases env.partWrite u with _ | n
  · simp only []
    split
    · split
      · rfl
      · rw [lookA_fsDel, if_neg h]
    · rfl
  · simp only []
    split
    · split
      · rw [lookA_fsPut_ne _ _ _ _ h]
      · rw [lookA_fsDel, if_neg h, lookA_fsPut_ne _ _ _ _ h]
    · rw [lookA_fsPut_ne _ _ _ _ h]

theorem lookA_errCleanupFs_unlinkOk (env : Env) (u : String)
    (fs : List ((String × String) × Nat)) (k : String × String)
    (h : env.unlinkErr k = false) : lookA (errCleanupFs env u fs k) k = none := by
  simp only [errCleanupFs]
  rcases hpw : env.partWrite u with _ | n <;> simp only []
  · by_cases hlk : (lookA fs k).isSome
    · rw [if_pos hlk, if_neg (by rw [h]; exact Bool.false_ne_true), lookA_fsDel]
      simp
    · rw [if_neg hlk]
      exact Option.not_isSome_iff_eq_none.mp hlk
  · have hsome : (lookA (fsPut fs k n) k).isSome := by
      rw [lookA_fsPut_self]
      rfl
    rw [if_pos hsome, if_neg (by rw [h]; exact Bool.false_ne_true), lookA_fsDel]
    simp

theorem lookA_filterK {α β : Type} [DecidableEq α] (m : List (α × β)) (Q : α → Bool)
    (k : α) : lookA (m.filter (fun p => Q p.1)) k = if Q k then lookA m k else none := by
  induction m with
  | nil => simp [lookA]
  | cons p rest ih =>
    by_cases hq : Q p.1
    · rw [List.filter_cons, if_pos (by simp [hq])]
      by_cases hk : p.1 = k
      · subst hk; simp [lookA, hq]
      · simp [lookA, hk, ih]
    · rw [List.filter_cons, if_neg (by simp [hq])]
      by_cases hk : p.1 = k
      · subst hk
        simpa [hq] using ih
      · rw [ih]
        by_cases hQk : Q k
        · simp [hQk, lookA, hk]
        · simp [hQk]

theorem updateA_mem {α β : Type} [DecidableEq α] (m : List (α × β)) (k : α) (v : β)
    (p : α × β) (h : p ∈ updateA m k v) : p ∈ m ∨ p = (k, v) := by
  induction m with
  | nil => simpa [updateA] using h
  | cons q rest ih =>
    by_cases hq : q.1 = k
    · simp only [updateA, if_pos hq, List.mem_cons] at h
      rcases h with h | h
      · exact Or.inr h
      · exact Or.inl (List.mem_cons_of_mem _ h)
    · simp only [updateA, if_neg hq, List.mem_cons] at h
      rcases h with h | h
      · exact Or.inl (by simp [h])
      · rcases ih h with h' | h'
        · exact Or.inl (List.mem_cons_of_mem _ h')
        · exact Or.inr h'

theorem updateA_of_lookA_none {α β : Type} [DecidableEq α] (m : List (α × β)) (k : α)
    (v : β) (h : lookA m k = none) : updateA m k v = m ++ [(k, v)] := by
  induction m with
  | nil => simp [updateA]
  | cons q rest ih =>
    by_cases hq : q.1 = k
    · simp [lookA, hq] at h
    · have h' : lookA rest k = none := by simpa [lookA, hq] using h
      simp [updateA, hq, ih h']

theorem lookA_append_sing_ne {α β : Type} [DecidableEq α] (m : List (α × β)) (k k' : α)
    (v : β) (h : k' ≠ k) : lookA (m ++ [(k, v)]) k' = lookA m k' := by
  induction m with
  | nil => simp [lookA, Ne.symm h]
  | cons q rest ih =>
    by_cases hq : q.1 = k'
    · simp [lookA, hq]
    · simp [lookA, hq, ih]

theorem addSet_mem (c : List String) (x y : String) :
    y ∈ addSet c x ↔ y ∈ c ∨ y = x := by
  unfold addSet
  split
  · constructor
    · exact fun h => Or.inl h
    · rintro (h | rfl)
      · exact h
      · assumption
  · simp [List.mem_append]

theorem keysNodup_eq {β : Type} {l : List (String × β)} (h : (l.map Prod.fst).Nodup)
    {g : String} {a b : β} (h1 : (g, a) ∈ l) (h2 : (g, b) ∈ l) : a = b := by
  induction l with
  | nil => cases h1
  | cons p rest ih =>
    simp only [List.map_cons, List.nodup_cons] at h
    rcases List.mem_cons.mp h1 with e1 | m1 <;> rcases List.mem_cons.mp h2 with e2 | m2
    · have e := e1.trans e2.symm
      injection e with efst esnd
    · exact absurd (List.mem_map.mpr ⟨(g, b), m2, by rw [← e1]⟩) h.1
    · exact absurd (List.mem_map.mpr ⟨(g, a), m1, by rw [← e2]⟩) h.1
    · exact ih h.2 m1 m2

theorem mkdirD_spec (env : Env) (d : String) (s : St) :
    ((mkdirD env d s).2.completed = s.completed ∧
     (mkdirD env d s).2.errored = s.errored ∧
     (mkdirD env d s).2.fs = s.fs ∧
     (mkdirD env d s).2.authed = s.authed ∧
     (mkdirD env d s).2.savedCompleted = s.savedCompleted ∧
     (mkdirD env d s).2.savedErrored = s.savedErrored ∧
     (mkdirD env d s).2.missingFile = s.missingFile ∧
     (mkdirD env d s).2.trace = s.trace) ∧
    (∀ x, x ∈ s.dirs → x ∈ (mkdirD env d s).2.dirs) ∧
    (∀ v, (mkdirD env d s).1 = .ok v → d ∈ (mkdirD env d s).2.dirs) ∧
    (∀ m, (mkdirD env d s).1 = .error m → (mkdirD env d s).2 = s) := by
  unfold mkdirD
  split
  · simp_all
  · split <;> simp_all [List.mem_cons]

theorem dfb_cases (env : Env) (g u : String) (s : St) :
    (0 < ((lookA s.fs (g, lastSeg u)).getD 0) ∧
      downloadFileBody env g u s = (.ok (true, g ++ "/" ++ lastSeg u), s)) ∨
    (¬ 0 < ((lookA s.fs (g, lastSeg u)).getD 0) ∧ ¬ s.authed ∧ ¬ env.authWorks ∧
      downloadFileBody env g u s = (.ok (false, "Authentication failed"), s)) ∨
    (∃ sz, ¬ 0 < ((lookA s.fs (g, lastSeg u)).getD 0) ∧ (s.authed ∨ env.authWorks) ∧
      env.net u = .ok sz ∧
      downloadFileBody env g u s =
        (.ok (true, g ++ "/" ++ lastSeg u),
         { s with authed := true, trace := s.trace ++ [u],
                  fs := fsPut s.fs (g, lastSeg u) sz })) ∨
    (∃ m, ¬ 0 < ((lookA s.fs (g, lastSeg u)).getD 0) ∧ (s.authed ∨ env.authWorks) ∧
      env.net u = .err m ∧
      downloadFileBody env g u s =
        (.ok (false, "Failed to download " ++ u ++ ": " ++ m),
         { s with authed := true, trace := s.trace ++ [u],
                  fs := errCleanupFs env u s.fs (g, lastSeg u) })) := by
  by_cases h1 : 0 < ((lookA s.fs (g, lastSeg u)).getD 0)
  · exact Or.inl ⟨h1, by simp [downloadFileBody, h1]⟩
  · by_cases h2 : ¬ s.authed ∧ ¬ env.authWorks
    · refine Or.inr (Or.inl ⟨h1, h2.1, h2.2, ?_⟩)
      simp [downloadFileBody, h1, h2.1, h2.2]
    · have h2' : s.authed ∨ env.authWorks := by tauto
      cases hnet : env.net u with
      | ok sz =>
        refine Or.inr (Or.inr (Or.inl ⟨sz, h1, h2', rfl, ?_⟩))
        rcases h2' with ha | ha <;> simp [downloadFileBody, h1, ha, hnet]
      | err m =>
        refine Or.inr (Or.inr (Or.inr ⟨m, h1, h2', rfl, ?_⟩))
        rcases h2' with ha | ha <;> simp [downloadFileBody, h1, ha, hnet]

theorem df_cases (env : Env) (g u : String) (s : St) :
    (∃ m, g ∉ s.dirs ∧ env.mkdirErr g = some m ∧
      downloadFile env g u s = (.error m, s)) ∨
    (∃ s0 : St, s0.completed = s.completed ∧ s0.errored = s.errored ∧ s0.fs = s.fs ∧
      s0.authed = s.authed ∧ s0.savedCompleted = s.savedCompleted ∧
      s0.savedErrored = s.savedErrored ∧ s0.missingFile = s.missingFile ∧
      s0.trace = s.trace ∧ (∀ x, x ∈ s.dirs → x ∈ s0.dirs) ∧ g ∈ s0.dirs ∧
      downloadFile env g u s = downloadFileBody env g u s0) := by
  by_cases hd : g ∈ s.dirs
  · right
    exact ⟨s, rfl, rfl, rfl, rfl, rfl, rfl, rfl, rfl, fun x hx => hx, hd,
      by simp [downloadFile, mkdirD, hd]⟩
  · cases henv : env.mkdirErr g with
    | some m =>
      refine Or.inl ⟨m, hd, rfl, ?_⟩
      simp [downloadFile, mkdirD, hd, henv]
    | none =>
      right
      refine ⟨{ s with dirs := g :: s.dirs }, rfl, rfl, rfl, rfl, rfl, rfl, rfl, rfl,
        fun x hx => List.mem_cons_of_mem _ hx, List.mem_cons_self _ _,
        by simp [downloadFile, mkdirD, hd, henv]⟩

theorem df_frame (env : Env) (g u : String) (s : St) :
    (downloadFile env g u s).2.completed = s.completed ∧
    (downloadFile env g u s).2.errored = s.errored ∧
    (downloadFile env g u s).2.savedCompleted = s.savedCompleted ∧
    (downloadFile env g u s).2.savedErrored = s.savedErrored ∧
    (downloadFile env g u s).2.missingFile = s.missingFile := by
  rcases df_cases env g u s with ⟨m, _, _, he⟩ |
    ⟨s0, hc, herr, hfs, hau, hsc, hse, hmf, htr, hdirs, hg, heq⟩
  · rw [he]; exact ⟨rfl, rfl, rfl, rfl, rfl⟩
  · rw [heq]
    rcases dfb_cases env g u s0 with ⟨_, he⟩ | ⟨_, _, _, he⟩ | ⟨sz, _, _, _, he⟩ |
      ⟨m, _, _, _, he⟩ <;> rw [he] <;>
      exact ⟨hc, herr, hsc, hse, hmf⟩

theorem df_dirs_mono (env : Env) (g u : String) (s : St) (x : String)
    (hx : x ∈ s.dirs) : x ∈ (downloadFile env g u s).2.dirs := by
  rcases df_cases env g u s with ⟨m, _, _, he⟩ |
    ⟨s0, hc, herr, hfs, hau, hsc, hse, hmf, htr, hdirs, hg, heq⟩
  · rw [he]; exact hx
  · rw [heq]
    rcases dfb_cases env g u s0 with ⟨_, he⟩ | ⟨_, _, _, he⟩ | ⟨sz, _, _, _, he⟩ |
      ⟨m, _, _, _, he⟩ <;> rw [he] <;> exact hdirs x hx

theorem df_error (env : Env) (g u : String) (s : St) (m : String)
    (h : (downloadFile env g u s).1 = .error m) : (downloadFile env g u s).2 = s := by
  rcases df_cases env g u s with ⟨m', _, _, he⟩ |
    ⟨s0, hc, herr, hfs, hau, hsc, hse, hmf, htr, hdirs, hg, heq⟩
  · rw [he]
  · rw [heq] at h ⊢
    rcases dfb_cases env g u s0 with ⟨_, he⟩ | ⟨_, _, _, he⟩ | ⟨sz, _, _, _, he⟩ |
      ⟨m', _, _, _, he⟩ <;> rw [he] at h <;> cases h

theorem df_ok_of_dirs (env : Env) (g u : String) (s : St) (hd : g ∈ s.dirs) :
    ∃ v, (downloadFile env g u s).1 = .ok v := by
  rcases df_cases env g u s with ⟨m, hnd, _, he⟩ |
    ⟨s0, hc, herr, hfs, hau, hsc, hse, hmf, htr, hdirs, hg, heq⟩
  · exact absurd hd hnd
  · rw [heq]
    rcases dfb_cases env g u s0 with ⟨_, he⟩ | ⟨_, _, _, he⟩ | ⟨sz, _, _, _, he⟩ |
      ⟨m, _, _, _, he⟩ <;> rw [he] <;> exact ⟨_, rfl⟩

theorem df_fs_frame (env : Env) (g u : String) (s : St) (k : String × String)
    (hk : k ≠ (g, lastSeg u)) :
    lookA (downloadFile env g u s).2.fs k = lookA s.fs k := by
  rcases df_cases env g u s with ⟨m, _, _, he⟩ |
    ⟨s0, hc, herr, hfs, hau, hsc, hse, hmf, htr, hdirs, hg, heq⟩
  · rw [he]
  · rw [heq]
    rcases dfb_cases env g u s0 with ⟨_, he⟩ | ⟨_, _, _, he⟩ | ⟨sz, _, _, _, he⟩ |
      ⟨m, _, _, _, he⟩ <;> rw [he] <;> simp only [hfs] <;>
      first
        | rfl
        | (rw [lookA_fsPut_ne _ _ _ _ hk])
        | (rw [lookA_errCleanupFs_ne _ _ _ _ _ hk])

theorem df_success_fileOk (env : Env) (g u : String) (s : St) (p : String)
    (hpos : ∀ w n, env.net w = .ok n → 0 < n)
    (h : (downloadFile env g u s).1 = .ok (true, p)) :
    fileOk (downloadFile env g u s).2 g (lastSeg u) := by
  rcases df_cases env g u s with ⟨m, _, _, he⟩ |
    ⟨s0, hc, herr, hfs, hau, hsc, hse, hmf, htr, hdirs, hg, heq⟩
  · rw [he] at h; cases h
  · rw [heq] at h ⊢
    rcases dfb_cases env g u s0 with ⟨hsk, he⟩ | ⟨_, _, _, he⟩ | ⟨sz, _, _, hnet, he⟩ |
      ⟨m, _, _, _, he⟩ <;> rw [he] at h ⊢
    · cases hlk : lookA s0.fs (g, lastSeg u) with
      | none => rw [hlk] at hsk; simp at hsk
      | some n =>
        rw [hlk] at hsk; simp only [Option.getD_some] at hsk
        exact ⟨n, hlk, hsk⟩
    · cases h
    · exact ⟨sz, lookA_fsPut_self _ _ _, hpos u sz hnet⟩
    · cases h

theorem df_success_preserve (env : Env) (g u : String) (s : St) (p a b : String)
    (hpos : ∀ w n, env.net w = .ok n → 0 < n)
    (h : (downloadFile env g u s).1 = .ok (true, p))
    (hab : fileOk s a b) : fileOk (downloadFile env g u s).2 a b := by
  obtain ⟨n, hn, hnpos⟩ := hab
  rcases df_cases env g u s with ⟨m, _, _, he⟩ |
    ⟨s0, hc, herr, hfs, hau, hsc, hse, hmf, htr, hdirs, hg, heq⟩
  · rw [he] at h; cases h
  · rw [heq] at h ⊢
    rcases dfb_cases env g u s0 with ⟨hsk, he⟩ | ⟨_, _, _, he⟩ | ⟨sz, _, _, hnet, he⟩ |
      ⟨m, _, _, _, he⟩ <;> rw [he] at h ⊢
    · exact ⟨n, by rw [hfs]; exact hn, hnpos⟩
    · cases h
    · by_cases hk : (a, b) = (g, lastSeg u)
      · refine ⟨sz, ?_, hpos u sz hnet⟩
        show lookA (fsPut s0.fs (g, lastSeg u) sz) (a, b) = some sz
        rw [hk]; exact lookA_fsPut_self _ _ _
      · refine ⟨n, ?_, hnpos⟩
        show lookA (fsPut s0.fs (g, lastSeg u) sz) (a, b) = some n
        rw [lookA_fsPut_ne _ _ _ _ hk, hfs]; exact hn
    · cases h

theorem dgLoop_ok_true (env : Env) (g : String) (us : List String) (s : St)
    (h : (dgLoop env g us s).1 = .ok true) :
    (dgLoop env g us s).2.completed = addSet s.completed g ∧
    (dgLoop env g us s).2.errored = s.errored ∧
    (dgLoop env g us s).2.savedCompleted = addSet s.completed g ∧
    (dgLoop env g us s).2.savedErrored = s.errored ∧
    (dgLoop env g us s).2.missingFile = s.missingFile := by
  induction us generalizing s with
  | nil => exact ⟨rfl, rfl, rfl, rfl, rfl⟩
  | cons u rest ih =>
    rcases hdf : downloadFile env g u s with ⟨r, s1⟩
    have frame := df_frame env g u s
    rw [hdf] at frame
    dsimp only at frame
    obtain ⟨fc, fe, -, -, fmf⟩ := frame
    simp only [dgLoop, hdf] at h ⊢
    cases r with
    | error m => simp at h
    | ok v =>
      rcases v with ⟨b, p⟩
      cases b
      · simp at h
      · simp only [] at h ⊢
        have := ih s1 h
        rw [this.1, this.2.1, this.2.2.1, this.2.2.2.1, this.2.2.2.2, fc, fe, fmf]
        exact ⟨rfl, rfl, rfl, rfl, rfl⟩

theorem dgLoop_ok_false (env : Env) (g : String) (us : List String) (s : St)
    (h : (dgLoop env g us s).1 = .ok false) :
    (dgLoop env g us s).2.completed = s.completed ∧
    (∃ msg, (dgLoop env g us s).2.errored = updateA s.errored g msg) ∧
    (dgLoop env g us s).2.savedCompleted = s.completed ∧
    (dgLoop env g us s).2.savedErrored = (dgLoop env g us s).2.errored ∧
    (dgLoop env g us s).2.missingFile = s.missingFile := by
  induction us generalizing s with
  | nil => simp only [dgLoop] at h; cases h
  | cons u rest ih =>
    rcases hdf : downloadFile env g u s with ⟨r, s1⟩
    have frame := df_frame env g u s
    rw [hdf] at frame
    dsimp only at frame
    obtain ⟨fc, fe, -, -, fmf⟩ := frame
    simp only [dgLoop, hdf] at h ⊢
    cases r with
    | error m => simp at h
    | ok v =>
      rcases v with ⟨b, p⟩
      cases b
      · simp only [] at h ⊢
        refine ⟨?_, ⟨p, ?_⟩, ?_, ?_, ?_⟩ <;> simp [saveState, fc, fe, fmf]
      · simp only [] at h ⊢
        obtain ⟨hc, ⟨msg, herr⟩, hsc, hse, hmf⟩ := ih s1 h
        exact ⟨by rw [hc, fc], ⟨msg, by rw [herr, fe]⟩, by rw [hsc, fc], hse,
          by rw [hmf, fmf]⟩

theorem dgLoop_error (env : Env) (g : String) (us : List String) (s : St) (m : String)
    (h : (dgLoop env g us s).1 = .error m) :
    (dgLoop env g us s).2.completed = s.completed ∧
    (dgLoop env g us s).2.errored = s.errored ∧
    (dgLoop env g us s).2.savedCompleted = s.savedCompleted ∧
    (dgLoop env g us s).2.savedErrored = s.savedErrored ∧
    (dgLoop env g us s).2.missingFile = s.missingFile := by
  induction us generalizing s with
  | nil => simp only [dgLoop] at h; cases h
  | cons u rest ih =>
    rcases hdf : downloadFile env g u s with ⟨r, s1⟩
    have frame := df_frame env g u s
    rw [hdf] at frame
    dsimp only at frame
    obtain ⟨fc, fe, fsc, fse, fmf⟩ := frame
    simp only [dgLoop, hdf] at h ⊢
    cases r with
    | error m' =>
      have hs1 : s1 = s := by
        have := df_error env g u s m'
        rw [hdf] at this
        exact this rfl
      subst hs1
      exact ⟨rfl, rfl, rfl, rfl, rfl⟩
    | ok v =>
      rcases v with ⟨b, p⟩
      cases b
      · simp at h
      · simp only [] at h ⊢
        obtain ⟨hc, he, hsc, hse, hmf⟩ := ih s1 h
        exact ⟨by rw [hc, fc], by rw [he, fe], by rw [hsc, fsc], by rw [hse, fse],
          by rw [hmf, fmf]⟩

theorem dgLoop_fs_frame (env : Env) (g : String) (us : List String) (s : St)
    (k : String × String) (hk : k.1 ≠ g) :
    lookA (dgLoop env g us s).2.fs k = lookA s.fs k := by
  induction us generalizing s with
  | nil => rfl
  | cons u rest ih =>
    have hk' : k ≠ (g, lastSeg u) := by
      intro e; exact hk (by rw [e])
    rcases hdf : downloadFile env g u s with ⟨r, s1⟩
    have hf := df_fs_frame env g u s k hk'
    rw [hdf] at hf
    dsimp only at hf
    simp only [dgLoop, hdf]
    cases r with
    | error m => exact hf
    | ok v =>
      rcases v with ⟨b, p⟩
      cases b
      · simp only []
        rw [show (saveState { s1 with errored := updateA s1.errored g p }).fs = s1.fs
            from rfl]
        exact hf
      · simp only []
        rw [ih s1, hf]

theorem dgLoop_success_files (env : Env) (g : String) (us : List String) (s : St)
    (hpos : ∀ w n, env.net w = .ok n → 0 < n)
    (h : (dgLoop env g us s).1 = .ok true) :
    (∀ u ∈ us, fileOk (dgLoop env g us s).2 g (lastSeg u)) ∧
    (∀ a b, fileOk s a b → fileOk (dgLoop env g us s).2 a b) := by
  induction us generalizing s with
  | nil =>
    refine ⟨by simp, fun a b hab => ?_⟩
    obtain ⟨n, hn, hp⟩ := hab
    exact ⟨n, hn, hp⟩
  | cons u rest ih =>
    rcases hdf : downloadFile env g u s with ⟨r, s1⟩
    simp only [dgLoop, hdf] at h ⊢
    cases r with
    | error m => simp at h
    | ok v =>
      rcases v with ⟨b, p⟩
      cases b
      · simp at h
      · simp only [] at h ⊢
        obtain ⟨hrest, hpres⟩ := ih s1 h
        have hhead : fileOk s1 g (lastSeg u) := by
          have := df_success_fileOk env g u s p hpos (by rw [hdf])
          rw [hdf] at this
          exact this
        refine ⟨?_, ?_⟩
        · intro u' hu'
          rcases List.mem_cons.mp hu' with rfl | hu'
          · exact hpres _ _ hhead
          · exact hrest u' hu'
        · intro a b hab
          refine hpres a b ?_
          have := df_success_preserve env g u s p a b hpos (by rw [hdf]) hab
          rw [hdf] at this
          exact this

theorem dgLoop_no_error (env : Env) (g : String) (us : List String) (s : St)
    (hd : g ∈ s.dirs) : ∃ b, (dgLoop env g us s).1 = .ok b := by
  induction us generalizing s with
  | nil => exact ⟨true, rfl⟩
  | cons u rest ih =>
    rcases hdf : downloadFile env g u s with ⟨r, s1⟩
    have hok := df_ok_of_dirs env g u s hd
    rw [hdf] at hok
    obtain ⟨v, hv⟩ := hok
    dsimp only at hv
    subst hv
    have hd1 : g ∈ s1.dirs := by
      have := df_dirs_mono env g u s g hd
      rw [hdf] at this
      exact this
    simp only [dgLoop, hdf]
    rcases v with ⟨b, p⟩
    cases b
    · exact ⟨false, rfl⟩
    · exact ih s1 hd1

theorem dg_cases (env : Env) (g : String) (urls : List String) (s : St) :
    (urls = [] ∧ downloadGranule env g urls s = (.ok false, s)) ∨
    (urls ≠ [] ∧ g ∈ s.completed ∧ downloadGranule env g urls s = (.ok true, s)) ∨
    (∃ m, urls ≠ [] ∧ g ∉ s.completed ∧ g ∉ s.dirs ∧ env.mkdirErr g = some m ∧
      downloadGranule env g urls s = (.error m, s)) ∨
    (∃ s0 : St, urls ≠ [] ∧ g ∉ s.completed ∧
      s0.completed = s.completed ∧ s0.errored = s.errored ∧ s0.fs = s.fs ∧
      s0.authed = s.authed ∧ s0.savedCompleted = s.savedCompleted ∧
      s0.savedErrored = s.savedErrored ∧ s0.missingFile = s.missingFile ∧
      s0.trace = s.trace ∧ g ∈ s0.dirs ∧ (∀ x, x ∈ s.dirs → x ∈ s0.dirs) ∧
      downloadGranule env g urls s = dgLoop env g urls s0) := by
  by_cases hu : urls = []
  · exact Or.inl ⟨hu, by simp [downloadGranule, hu]⟩
  · by_cases hc : g ∈ s.completed
    · exact Or.inr (Or.inl ⟨hu, hc, by simp [downloadGranule, hu, hc]⟩)
    · by_cases hd : g ∈ s.dirs
      · refine Or.inr (Or.inr (Or.inr ⟨s, hu, hc, rfl, rfl, rfl, rfl, rfl, rfl, rfl,
          rfl, hd, fun x hx => hx, ?_⟩))
        simp [downloadGranule, hu, hc, mkdirD, hd]
      · cases henv : env.mkdirErr g with
        | some m =>
          refine Or.inr (Or.inr (Or.inl ⟨m, hu, hc, hd, rfl, ?_⟩))
          simp [downloadGranule, hu, hc, mkdirD, hd, henv]
        | none =>
          refine Or.inr (Or.inr (Or.inr ⟨{ s with dirs := g :: s.dirs }, hu, hc,
            rfl, rfl, rfl, rfl, rfl, rfl, rfl, rfl, List.mem_cons_self _ _,
            fun x hx => List.mem_cons_of_mem _ hx, ?_⟩))
          simp [downloadGranule, hu, hc, mkdirD, hd, henv]

theorem downloadGranule_skip (env : Env) (g : String) (urls : List String) (s : St)
    (hu : urls ≠ []) (hc : g ∈ s.completed) :
    downloadGranule env g urls s = (.ok true, s) := by
  simp [downloadGranule, hu, hc]

/-- C2 (counterexample): granule `g` is already in the completed set,
yet `download_granule` called with an empty URL list returns `False`,
not `True` as the claim states for every URL list — the empty-URL check
at `download.py:216` precedes the completed-set skip at line 221. -/
theorem c2_counterexample :
    "g" ∈ stDone.completed ∧
    (downloadGranule envZero "g" [] stDone).1 = .ok false := by
  exact ⟨List.mem_singleton.mpr rfl, rfl⟩

/-- C2 (amended): for every granule already in the completed set and
every non-empty URL list, `download_granule` returns `True` and leaves
the state — including the trace of issued network requests — unchanged,
so the re-entry performs zero network requests. -/
theorem c2_amended (env : Env) (g : String) (urls : List String) (s : St)
    (hu : urls ≠ []) (hc : g ∈ s.completed) :
    downloadGranule env g urls s = (.ok true, s) :=
  downloadGranule_skip env g urls s hu hc

/-- C2 (witness). -/
theorem c2_witness :
    downloadGranule envZero "g" ["h/f"] stDone = (.ok true, stDone) :=
  c2_amended envZero "g" ["h/f"] stDone (by simp) (List.mem_singleton.mpr rfl)

/-- C4 (counterexample): starting from a state with a stale error-map
entry for `g` (and `g` not completed), a successful `download_granule`
adds `g` to the completed set but does not remove the error entry, so
`g` ends up in both structures and the claimed disjointness invariant
fails. -/
theorem c4_counterexample :
    "g" ∈ (downloadGranule envOne "g" ["h/f"] stStale).2.completed ∧
    lookA (downloadGranule envOne "g" ["h/f"] stStale).2.errored "g" = some "old" ∧
    ¬ disjointInv (downloadGranule envOne "g" ["h/f"] stStale).2 := by
  have hmem : "g" ∈ (downloadGranule envOne "g" ["h/f"] stStale).2.completed := by
    rw [show (downloadGranule envOne "g" ["h/f"] stStale).2.completed = ["g"] from rfl]
    exact List.mem_singleton.mpr rfl
  refine ⟨hmem, rfl, fun hdisj => ?_⟩
  have := hdisj "g" hmem
  rw [show lookA (downloadGranule envOne "g" ["h/f"] stStale).2.errored "g"
      = some "old" from rfl] at this
  cases this

/-- C4 (amended): `download_granule` preserves the disjointness of the
completed set and the error map provided the granule had no pre-existing
error entry; a success does not clear such an entry, which is the only
way the invariant can break. -/
theorem c4_amended (env : Env) (g : String) (urls : List String) (s : St)
    (hd : disjointInv s) (hg : lookA s.errored g = none) :
    disjointInv (downloadGranule env g urls s).2 := by
  rcases dg_cases env g urls s with ⟨_, he⟩ | ⟨_, _, he⟩ | ⟨m, _, _, _, _, he⟩ |
    ⟨s0, hu, hc, hc0, he0, hfs0, hau0, hsc0, hse0, hmf0, htr0, hd0, hdm0, he⟩
  · rw [he]; exact hd
  · rw [he]; exact hd
  · rw [he]; exact hd
  · rw [he]
    intro g' hg'
    rcases hres : (dgLoop env g urls s0).1 with m | b
    · obtain ⟨hcl, hel, -, -, -⟩ := dgLoop_error env g urls s0 m hres
      rw [hel, he0]
      exact hd g' (by rw [← hc0, ← hcl]; exact hg')
    · cases b
      · obtain ⟨hcl, ⟨msg, herr⟩, -, -, -⟩ := dgLoop_ok_false env g urls s0 hres
        have hgs : g' ∈ s.completed := by rw [← hc0, ← hcl]; exact hg'
        have hne : g' ≠ g := fun e => hc (e ▸ hgs)
        rw [herr, he0, lookA_updateA_ne _ _ _ _ hne]
        exact hd g' hgs
      · obtain ⟨hcl, hel, -, -, -⟩ := dgLoop_ok_true env g urls s0 hres
        rw [hel, he0]
        rw [hcl] at hg'
        rcases (addSet_mem _ _ _).mp hg' with hgs | rfl
        · exact hd g' (hc0 ▸ hgs)
        · exact hg

/-- C4 (witness). -/
theorem c4_witness : disjointInv (downloadGranule envOne "g" ["h/f"] stEmpty).2 :=
  c4_amended envOne "g" ["h/f"] stEmpty
    (fun g hg => absurd hg (List.not_mem_nil g)) rfl

/-- C8 (counterexample): a directory-creation failure (for example
`PermissionError`, a local I/O failure) inside `download_granule` is
raised as an uncaught fault past the `download_granule` boundary — the
result is an exception, not a `(False, error-string)` result — and no
error string is recorded in the error map at that boundary. -/
theorem c8_counterexample :
    (downloadGranule envMkdirFail "g" ["u"] stEmpty).1 = .error "PermissionError" ∧
    (downloadGranule envMkdirFail "g" ["u"] stEmpty).2.errored = [] :=
  ⟨rfl, rfl⟩

/-- C8 (amended): failures of the streamed transfer (network, HTTP
status, disk write) never escape `download_granule`: when every needed
`mkdir` succeeds the call returns a boolean, and whenever it returns
`False` the failure has been recorded as an error string in the error
map.  Only `mkdir` faults — raised outside every `try` block — escape as
uncaught exceptions, to be caught at the scheduler boundary. -/
theorem c8_amended :
    (∀ (env : Env) (g : String) (urls : List String) (s : St),
      (g ∈ s.dirs ∨ env.mkdirErr g = none) →
      ∃ b, (downloadGranule env g urls s).1 = .ok b) ∧
    (∀ (env : Env) (g : String) (urls : List String) (s : St),
      urls ≠ [] → (downloadGranule env g urls s).1 = .ok false →
      ∃ emsg, lookA (downloadGranule env g urls s).2.errored g = some emsg) := by
  constructor
  · intro env g urls s hmk
    rcases dg_cases env g urls s with ⟨_, he⟩ | ⟨_, _, he⟩ | ⟨m, _, _, hd, henv, he⟩ |
      ⟨s0, _, _, _, _, _, _, _, _, _, _, hd0, _, he⟩
    · exact ⟨false, by rw [he]⟩
    · exact ⟨true, by rw [he]⟩
    · rcases hmk with hd' | hn
      · exact absurd hd' hd
      · rw [henv] at hn; cases hn
    · rw [he]; exact dgLoop_no_error env g urls s0 hd0
  · intro env g urls s hu hres
    rcases dg_cases env g urls s with ⟨he0, he⟩ | ⟨_, _, he⟩ | ⟨m, _, _, hd, henv, he⟩ |
      ⟨s0, _, _, _, _, _, _, _, _, _, _, hd0, _, he⟩
    · exact absurd he0 hu
    · rw [he] at hres; cases hres
    · rw [he] at hres; cases hres
    · rw [he] at hres ⊢
      obtain ⟨-, ⟨msg, herr⟩, -, -, -⟩ := dgLoop_ok_false env g urls s0 hres
      exact ⟨msg, by rw [herr, lookA_updateA_self]⟩

/-- C8 (witness). -/
theorem c8_witness :
    (∃ b, (downloadGranule envOne "g" ["h/f"] stEmpty).1 = .ok b) ∧
    (∃ emsg, lookA (downloadGranule envB "g" ["h/B"] stEmpty).2.errored "g"
      = some emsg) :=
  ⟨c8_amended.1 envOne "g" ["h/f"] stEmpty (Or.inr rfl),
   c8_amended.2 envB "g" ["h/B"] stEmpty (by simp) rfl⟩

/-- C10: when the error map is non-empty, `retry_failed_granules` on an
empty payload raises an uncaught `IndexError` (from
`list(collection_payload.keys())[0]`), while `download_collection` and
`check_missing_granules` return zeroed statistics on an empty payload. -/
theorem c10_empty_payload (env : Env) (mw : Nat) (s : St) (dm : Bool)
    (h : s.errored ≠ []) :
    retryFailed env mw [] s = (.error "IndexError", s) ∧
    downloadCollection env mw [] s = (⟨0, 0, 0, false⟩, s) ∧
    checkMissing env mw [] dm s = (⟨0, 0, 0, 0⟩, s) := by
  refine ⟨?_, rfl, rfl⟩
  simp [retryFailed, h]

/-- C10 (witness). -/
theorem c10_witness :
    retryFailed envZero 4 [] stStale = (.error "IndexError", stStale) ∧
    downloadCollection envZero 4 [] stStale = (⟨0, 0, 0, false⟩, stStale) ∧
    checkMissing envZero 4 [] true stStale = (⟨0, 0, 0, 0⟩, stStale) :=
  c10_empty_payload envZero 4 stStale true (by simp [stStale])

/-- C1 (counterexample): a transfer that succeeds with an empty body (a
200 response carrying zero bytes) makes `download_file` report success
and `download_granule` mark the granule completed, while the derived
file exists with size zero — so completed-set membership does not imply
a non-zero-size file, refuting the claimed invariant. -/
theorem c1_counterexample :
    "g" ∈ (downloadGranule envZero "g" ["h/f"] stEmpty).2.completed ∧
    lookA (downloadGranule envZero "g" ["h/f"] stEmpty).2.fs ("g", "f") = some 0 ∧
    ¬ granuleInv [("g", ["h/f"])] (downloadGranule envZero "g" ["h/f"] stEmpty).2 := by
  have hmem : "g" ∈ (downloadGranule envZero "g" ["h/f"] stEmpty).2.completed := by
    rw [show (downloadGranule envZero "g" ["h/f"] stEmpty).2.completed = ["g"] from rfl]
    exact List.mem_singleton.mpr rfl
  refine ⟨hmem, rfl, fun hinv => ?_⟩
  obtain ⟨n, hn, hp⟩ := hinv "g" ["h/f"] (List.mem_singleton.mpr rfl) hmem "h/f"
    (List.mem_singleton.mpr rfl)
  rw [show lookA (downloadGranule envZero "g" ["h/f"] stEmpty).2.fs
      ("g", lastSeg "h/f") = some 0 from rfl] at hn
  injection hn with hn'
  omega

/-- C1 (amended): provided every successful transfer delivers at least
one byte, `download_granule` preserves the invariant that, for every
granule of the payload, completed-set membership implies every URL's
derived file exists on disk with non-zero size. -/
theorem c1_amended (env : Env) (granules : List (String × List String))
    (g : String) (urls : List String) (s : St)
    (hpos : ∀ w n, env.net w = .ok n → 0 < n)
    (hkeys : (granules.map Prod.fst).Nodup)
    (hmem : (g, urls) ∈ granules)
    (hinv : granuleInv granules s) :
    granuleInv granules (downloadGranule env g urls s).2 := by
  rcases dg_cases env g urls s with ⟨_, he⟩ | ⟨_, _, he⟩ | ⟨m, _, _, _, _, he⟩ |
    ⟨s0, hu, hc, hc0, he0, hfs0, hau0, hsc0, hse0, hmf0, htr0, hd0, hdm0, he⟩
  · rw [he]; exact hinv
  · rw [he]; exact hinv
  · rw [he]; exact hinv
  · rw [he]
    intro g' urls' hmem' hcomp' u hu'
    rcases hres : (dgLoop env g urls s0).1 with m | b
    · obtain ⟨hcl, -, -, -, -⟩ := dgLoop_error env g urls s0 m hres
      rw [hcl, hc0] at hcomp'
      have hne : g' ≠ g := fun e => hc (e ▸ hcomp')
      obtain ⟨n, hn, hp⟩ := hinv g' urls' hmem' hcomp' u hu'
      refine ⟨n, ?_, hp⟩
      rw [dgLoop_fs_frame env g urls s0 (g', lastSeg u) hne, hfs0]
      exact hn
    · cases b
      · obtain ⟨hcl, -, -, -, -⟩ := dgLoop_ok_false env g urls s0 hres
        rw [hcl, hc0] at hcomp'
        have hne : g' ≠ g := fun e => hc (e ▸ hcomp')
        obtain ⟨n, hn, hp⟩ := hinv g' urls' hmem' hcomp' u hu'
        refine ⟨n, ?_, hp⟩
        rw [dgLoop_fs_frame env g urls s0 (g', lastSeg u) hne, hfs0]
        exact hn
      · obtain ⟨hcl, -, -, -, -⟩ := dgLoop_ok_true env g urls s0 hres
        have hfiles := dgLoop_success_files env g urls s0 hpos hres
        rw [hcl] at hcomp'
        rcases (addSet_mem _ _ _).mp hcomp' with hgs | rfl
        · obtain ⟨n, hn, hp⟩ := hinv g' urls' hmem' (hc0 ▸ hgs) u hu'
          exact hfiles.2 g' (lastSeg u) ⟨n, by rw [hfs0]; exact hn, hp⟩
        · have heq : urls' = urls := keysNodup_eq hkeys hmem' hmem
          subst heq
          exact hfiles.1 u hu'

/-- C1 (witness). -/
theorem c1_witness :
    granuleInv [("g", ["h/f"])] (downloadGranule envOne "g" ["h/f"] stEmpty).2 :=
  c1_amended envOne [("g", ["h/f"])] "g" ["h/f"] stEmpty
    (fun w n h => by injection h with h'; omega)
    (by simp)
    (List.mem_singleton.mpr rfl)
    (fun g urls hm hc => absurd hc (List.not_mem_nil g))

/-- C3: for a granule with URLs `[A, B, C]` where fetching `A` succeeds
and fetching `B` fails, `download_granule` requests exactly `A` and `B`
over the network (never `C`), records the granule in the error map with
the fetcher's error string for `B`, persists both state files at that
moment, returns `False`, and the file downloaded for `A` remains on disk
with its transferred size (no rollback). -/
theorem c3_short_circuit (env : Env) (g A B C m : String) (sa : Nat) (s : St)
    (hdir : g ∈ s.dirs) (hc : g ∉ s.completed) (hauth : s.authed = true)
    (hA : env.net A = .ok sa) (hB : env.net B = .err m)
    (hfA : lookA s.fs (g, lastSeg A) = none) (hfB : lookA s.fs (g, lastSeg B) = none)
    (hne : lastSeg B ≠ lastSeg A) :
    (downloadGranule env g [A, B, C] s).1 = .ok false ∧
    (downloadGranule env g [A, B, C] s).2.trace = s.trace ++ [A, B] ∧
    lookA (downloadGranule env g [A, B, C] s).2.errored g
      = some ("Failed to download " ++ B ++ ": " ++ m) ∧
    (downloadGranule env g [A, B, C] s).2.savedErrored
      = (downloadGranule env g [A, B, C] s).2.errored ∧
    (downloadGranule env g [A, B, C] s).2.savedCompleted
      = (downloadGranule env g [A, B, C] s).2.completed ∧
    lookA (downloadGranule env g [A, B, C] s).2.fs (g, lastSeg A) = some sa ∧
    g ∉ (downloadGranule env g [A, B, C] s).2.completed := by
  have hkk : ((g, lastSeg B) : String × String) ≠ (g, lastSeg A) := by
    intro e; exact hne (congrArg Prod.snd e)
  have hA1 : downloadFile env g A s =
      (.ok (true, g ++ "/" ++ lastSeg A),
       { s with authed := true, trace := s.trace ++ [A],
                fs := fsPut s.fs (g, lastSeg A) sa }) := by
    simp [downloadFile, mkdirD, hdir, downloadFileBody, hfA, hauth, hA]
  have hlkB : lookA (fsPut s.fs (g, lastSeg A) sa) (g, lastSeg B) = none := by
    rw [lookA_fsPut_ne _ _ _ _ hkk]; exact hfB
  have hA2 : downloadFile env g B
      { s with authed := true, trace := s.trace ++ [A],
               fs := fsPut s.fs (g, lastSeg A) sa } =
      (.ok (false, "Failed to download " ++ B ++ ": " ++ m),
       { s with authed := true, trace := (s.trace ++ [A]) ++ [B],
                fs := errCleanupFs env B (fsPut s.fs (g, lastSeg A) sa)
                  (g, lastSeg B) }) := by
    simp [downloadFile, mkdirD, hdir, downloadFileBody, hlkB, hB]
  have h0 : downloadGranule env g [A, B, C] s = dgLoop env g [A, B, C] s := by
    simp [downloadGranule, hc, mkdirD, hdir]
  have h3 : dgLoop env g [A, B, C] s =
      (.ok false,
       saveState
         { s with authed := true, trace := (s.trace ++ [A]) ++ [B],
                  fs := errCleanupFs env B (fsPut s.fs (g, lastSeg A) sa)
                    (g, lastSeg B),
                  errored := updateA s.errored g
                    ("Failed to download " ++ B ++ ": " ++ m) }) := by
    simp [dgLoop, hA1, hA2]
  rw [h0, h3]
  refine ⟨rfl, by simp [saveState], ?_, rfl, rfl, ?_, ?_⟩
  · exact lookA_updateA_self _ _ _
  · show lookA (errCleanupFs env B (fsPut s.fs (g, lastSeg A) sa) (g, lastSeg B))
      (g, lastSeg A) = some sa
    rw [lookA_errCleanupFs_ne _ _ _ _ _ (fun e => hkk e.symm)]
    exact lookA_fsPut_self _ _ _
  · exact hc

/-- C3 (witness). -/
theorem c3_witness :
    (downloadGranule envB "g" ["h/A", "h/B", "h/C"] stDirs).1 = .ok false ∧
    (downloadGranule envB "g" ["h/A", "h/B", "h/C"] stDirs).2.trace
      = stDirs.trace ++ ["h/A", "h/B"] ∧
    lookA (downloadGranule envB "g" ["h/A", "h/B", "h/C"] stDirs).2.errored "g"
      = some ("Failed to download " ++ "h/B" ++ ": " ++ "boom") ∧
    (downloadGranule envB "g" ["h/A", "h/B", "h/C"] stDirs).2.savedErrored
      = (downloadGranule envB "g" ["h/A", "h/B", "h/C"] stDirs).2.errored ∧
    (downloadGranule envB "g" ["h/A", "h/B", "h/C"] stDirs).2.savedCompleted
      = (downloadGranule envB "g" ["h/A", "h/B", "h/C"] stDirs).2.completed ∧
    lookA (downloadGranule envB "g" ["h/A", "h/B", "h/C"] stDirs).2.fs
      ("g", lastSeg "h/A") = some 7 ∧
    "g" ∉ (downloadGranule envB "g" ["h/A", "h/B", "h/C"] stDirs).2.completed :=
  c3_short_circuit envB "g" "h/A" "h/B" "h/C" "boom" 7 stDirs
    (List.mem_singleton.mpr rfl) (List.not_mem_nil _) rfl rfl rfl rfl rfl
    (by decide)

/-- C6 (counterexample): a transfer that fails mid-write after 3 bytes
(disk full), with the subsequent `unlink` of the partial file also
raising — an exception the source swallows (`download.py:198-201`) —
makes `download_file` return `(False, descriptive message)` while a
non-empty (3-byte) incomplete destination file remains on disk,
refuting "deletes the partially written destination file if one exists"
and "no non-empty but incomplete destination file remains". -/
theorem c6_counterexample :
    (downloadFile envDiskFull "g" "h/f" stDirs).1
      = .ok (false,
          "Failed to download " ++ "h/f" ++ ": " ++ "No space left on device") ∧
    lookA (downloadFile envDiskFull "g" "h/f" stDirs).2.fs ("g", "f") = some 3 :=
  ⟨rfl, rfl⟩

/-- C6 (amended): whenever `download_file` fails in the streamed-transfer
phase (network error, HTTP error status, or disk-write error — all one
`.err` outcome of the transfer), it returns `(False, descriptive
message)` and *attempts* to delete the partially written destination
file; the destination is absent afterwards provided that `unlink` does
not itself fail (its failure is swallowed).  Under the same proviso —
every `unlink` succeeding — after any `download_file` call the
destination holds either nothing, its previous content, or the
completely transferred body, never a partial write. -/
theorem c6_amended :
    (∀ (env : Env) (g u : String) (s : St) (m : String),
      g ∈ s.dirs →
      ¬ 0 < ((lookA s.fs (g, lastSeg u)).getD 0) →
      s.authed = true →
      env.net u = .err m →
      (downloadFile env g u s).1
        = .ok (false, "Failed to download " ++ u ++ ": " ++ m) ∧
      (env.unlinkErr (g, lastSeg u) = false →
        lookA (downloadFile env g u s).2.fs (g, lastSeg u) = none)) ∧
    (∀ (env : Env) (g u : String) (s : St) (k : String × String),
      (∀ k', env.unlinkErr k' = false) →
      lookA (downloadFile env g u s).2.fs k = none ∨
      lookA (downloadFile env g u s).2.fs k = lookA s.fs k ∨
      ∃ sz, env.net u = .ok sz ∧ lookA (downloadFile env g u s).2.fs k = some sz) := by
  constructor
  · intro env g u s m hdir hskip hauth hnet
    have he : downloadFile env g u s =
        (.ok (false, "Failed to download " ++ u ++ ": " ++ m),
         { s with authed := true, trace := s.trace ++ [u],
                  fs := errCleanupFs env u s.fs (g, lastSeg u) }) := by
      simp [downloadFile, mkdirD, hdir, downloadFileBody, hskip, hauth, hnet]
    rw [he]
    refine ⟨rfl, fun hul => ?_⟩
    show lookA (errCleanupFs env u s.fs (g, lastSeg u)) (g, lastSeg u) = none
    exact lookA_errCleanupFs_unlinkOk env u s.fs (g, lastSeg u) hul
  · intro env g u s k hul
    rcases df_cases env g u s with ⟨m, _, _, he⟩ |
      ⟨s0, _, _, hfs0, _, _, _, _, _, _, _, heq⟩
    · rw [he]; right; left; rfl
    · rw [heq]
      rcases dfb_cases env g u s0 with ⟨_, he⟩ | ⟨_, _, _, he⟩ | ⟨sz, _, _, hnet, he⟩ |
        ⟨m, _, _, _, he⟩ <;> rw [he]
      · right; left; rw [hfs0]
      · right; left; rw [hfs0]
      · by_cases hk : k = (g, lastSeg u)
        · refine Or.inr (Or.inr ⟨sz, hnet, ?_⟩)
          show lookA (fsPut s0.fs (g, lastSeg u) sz) k = some sz
          rw [hk]
          exact lookA_fsPut_self _ _ _
        · right; left
          show lookA (fsPut s0.fs (g, lastSeg u) sz) k = lookA s.fs k
          rw [lookA_fsPut_ne _ _ _ _ hk, hfs0]
      · by_cases hk : k = (g, lastSeg u)
        · left
          show lookA (errCleanupFs env u s0.fs (g, lastSeg u)) k = none
          rw [hk]
          exact lookA_errCleanupFs_unlinkOk env u s0.fs (g, lastSeg u)
            (hul (g, lastSeg u))
        · right; left
          show lookA (errCleanupFs env u s0.fs (g, lastSeg u)) k = lookA s.fs k
          rw [lookA_errCleanupFs_ne _ _ _ _ _ hk, hfs0]

/-- C6 (witness). -/
theorem c6_witness :
    ((downloadFile envB "g" "h/B" stDirs).1
        = .ok (false, "Failed to download " ++ "h/B" ++ ": " ++ "boom") ∧
      lookA (downloadFile envB "g" "h/B" stDirs).2.fs ("g", lastSeg "h/B") = none) ∧
    (lookA (downloadFile envB "g" "h/A" stDirs).2.fs ("g", "q") = none ∨
      lookA (downloadFile envB "g" "h/A" stDirs).2.fs ("g", "q")
        = lookA stDirs.fs ("g", "q") ∨
      ∃ sz, envB.net "h/A" = .ok sz ∧
        lookA (downloadFile envB "g" "h/A" stDirs).2.fs ("g", "q") = some sz) := by
  constructor
  · have h := c6_amended.1 envB "g" "h/B" stDirs "boom"
      (List.mem_singleton.mpr rfl) (by decide) rfl rfl
    exact ⟨h.1, h.2 rfl⟩
  · exact c6_amended.2 envB "g" "h/A" stDirs ("g", "q") (fun k' => rfl)

theorem schedStep_counts (env : Env) (l : List (String × List String)) :
    ∀ (a b : Nat) (s : St),
      (l.foldl (schedStep env) ((a, b), s)).1.1
        + (l.foldl (schedStep env) ((a, b), s)).1.2 = a + b + l.length := by
  induction l with
  | nil => intro a b s; simp
  | cons p rest ih =>
    intro a b s
    rcases hdg : downloadGranule env p.1 p.2 s with ⟨r, s'⟩
    simp only [List.foldl_cons]
    cases r with
    | error m =>
      rw [show schedStep env ((a, b), s) p
          = ((a, b + 1), { s' with errored := updateA s'.errored p.1 m }) from
          by simp [schedStep, hdg]]
      rw [ih]
      simp only [List.length_cons]
      omega
    | ok bb =>
      cases bb
      · rw [show schedStep env ((a, b), s) p = ((a, b + 1), s') from
            by simp [schedStep, hdg]]
        rw [ih]
        simp only [List.length_cons]
        omega
      · rw [show schedStep env ((a, b), s) p = ((a + 1, b), s') from
            by simp [schedStep, hdg]]
        rw [ih]
        simp only [List.length_cons]
        omega

/-- C7: for any granule map of `N` granules dispatched with
authentication succeeding, and for every worker-pool size and every
completion order (any permutation of the tasks), the scheduler's
statistics satisfy `succeeded + failed = N = total` — each task
contributes exactly one outcome (success, logical failure, or caught
fault). -/
theorem c7_aggregate (env : Env) (mw : Nat) (gs order : List (String × List String))
    (s : St) (hperm : order.Perm gs)
    (hauth : s.authed = true ∨ env.authWorks = true) :
    (downloadMany env mw order s).1.succeeded + (downloadMany env mw order s).1.failed
      = gs.length ∧
    (downloadMany env mw order s).1.total = gs.length := by
  have hlen := hperm.length_eq
  by_cases ho : order = []
  · subst ho
    simp only [List.length_nil] at hlen
    simp [downloadMany, ← hlen]
  · have hcond : ¬ (¬ s.authed ∧ ¬ env.authWorks) := by
      rcases hauth with h | h <;> simp [h]
    simp only [downloadMany, if_neg ho, if_neg hcond]
    have := schedStep_counts env order 0 0 { s with authed := true }
    constructor
    · simpa [hlen] using this
    · simpa using hlen

/-- C7 (witness). -/
theorem c7_witness :
    (downloadMany envB 4 [("b", ["h/B"]), ("a", ["h/A"])] stEmpty).1.succeeded
        + (downloadMany envB 4 [("b", ["h/B"]), ("a", ["h/A"])] stEmpty).1.failed
      = 2 ∧
    (downloadMany envB 4 [("b", ["h/B"]), ("a", ["h/A"])] stEmpty).1.total = 2 :=
  c7_aggregate envB 4 [("a", ["h/A"]), ("b", ["h/B"])]
    [("b", ["h/B"]), ("a", ["h/A"])] stEmpty (List.Perm.swap _ _ _) (Or.inl rfl)

theorem lookA_retryGranules (granules : List (String × List String))
    (errored : List (String × String)) (name : String) :
    lookA (retryGranules granules errored) name
      = if (lookA errored name).isSome then lookA granules name else none :=
  lookA_filterK granules (fun a => (lookA errored a).isSome) name

/-- C5: `retry_failed_granules` returns zero statistics and leaves the
state — including the request trace — untouched when the error map is
empty; otherwise, for every granule present in both the payload's
granule map and the error map, its error entry is removed and both state
files are persisted in the dispatch state, which still carries the
original request trace — i.e. strictly before any network re-attempt —
and the scheduler is then run from exactly that dispatch state,
regardless of the re-attempts' outcomes. -/
theorem c5_retry_clears_first (env : Env) (mw : Nat) (c : String)
    (granules : List (String × List String))
    (rest : List (String × List (String × List String))) (s : St) :
    (s.errored = [] →
      retryFailed env mw ((c, granules) :: rest) s = (.ok ⟨0, 0, 0⟩, s)) ∧
    (s.errored ≠ [] →
      retryGranules granules s.errored ≠ [] →
      (∀ name, (lookA granules name).isSome → (lookA s.errored name).isSome →
        lookA (retryDispatchState s (retryGranules granules s.errored)).errored name
          = none) ∧
      (retryDispatchState s (retryGranules granules s.errored)).savedErrored
        = (retryDispatchState s (retryGranules granules s.errored)).errored ∧
      (retryDispatchState s (retryGranules granules s.errored)).savedCompleted
        = (retryDispatchState s (retryGranules granules s.errored)).completed ∧
      (retryDispatchState s (retryGranules granules s.errored)).trace = s.trace ∧
      retryFailed env mw ((c, granules) :: rest) s =
        (.ok ⟨(retryGranules granules s.errored).length,
          (downloadMany env mw (retryGranules granules s.errored)
            (retryDispatchState s (retryGranules granules s.errored))).1.succeeded,
          (downloadMany env mw (retryGranules granules s.errored)
            (retryDispatchState s (retryGranules granules s.errored))).1.failed⟩,
         (downloadMany env mw (retryGranules granules s.errored)
           (retryDispatchState s (retryGranules granules s.errored))).2)) := by
  constructor
  · intro h
    simp [retryFailed, h]
  · intro herr hne
    refine ⟨?_, rfl, rfl, rfl, ?_⟩
    · intro name hg he
      show lookA (s.errored.filter
        (fun q => (lookA (retryGranules granules s.errored) q.1).isNone)) name = none
      rw [lookA_filterK s.errored
        (fun a => (lookA (retryGranules granules s.errored) a).isNone) name]
      rw [if_neg]
      rw [lookA_retryGranules, if_pos he]
      simp only [Option.isNone_iff_eq_none]
      intro h0
      rw [h0] at hg
      cases hg
    · simp [retryFailed, herr, hne]

/-- C5 (witness). -/
theorem c5_witness :
    retryFailed envOne 4 payloadX stEmpty = (.ok ⟨0, 0, 0⟩, stEmpty) ∧
    lookA (retryDispatchState stStale
      (retryGranules [("g", ["h/f"]), ("h2", ["h/z"])] stStale.errored)).errored "g"
      = none := by
  constructor
  · exact (c5_retry_clears_first envOne 4 "X" [("g", ["h/f"]), ("h2", ["h/z"])] []
      stEmpty).1 rfl
  · exact ((c5_retry_clears_first envOne 4 "X" [("g", ["h/f"]), ("h2", ["h/z"])] []
      stStale).2 (by decide) (by decide)).1 "g" (by decide) (by decide)

theorem dictComp_aux_mem (granules : List (String × List String)) :
    ∀ (names : List String) (acc : List (String × List String))
      (p : String × List String),
      p ∈ names.foldl
        (fun acc n =>
          match lookA granules n with
          | some urls => updateA acc n urls
          | none => acc) acc →
      p ∈ acc ∨ (p.1 ∈ names ∧ lookA granules p.1 = some p.2) := by
  intro names
  induction names with
  | nil => intro acc p hp; exact Or.inl hp
  | cons n ns ih =>
    intro acc p hp
    simp only [List.foldl_cons] at hp
    rcases hlk : lookA granules n with _ | urls
    · rw [hlk] at hp
      rcases ih acc p hp with h | ⟨h1, h2⟩
      · exact Or.inl h
      · exact Or.inr ⟨List.mem_cons_of_mem _ h1, h2⟩
    · rw [hlk] at hp
      rcases ih (updateA acc n urls) p hp with h | ⟨h1, h2⟩
      · rcases updateA_mem acc n urls p h with h' | h'
        · exact Or.inl h'
        · subst h'
          exact Or.inr ⟨List.mem_cons_self _ _, hlk⟩
      · exact Or.inr ⟨List.mem_cons_of_mem _ h1, h2⟩

theorem dictComp_mem (names : List String) (granules : List (String × List String))
    (p : String × List String) (hp : p ∈ dictComp names granules) :
    p.1 ∈ names ∧ lookA granules p.1 = some p.2 := by
  rcases dictComp_aux_mem granules names [] p hp with h | h
  · cases h
  · exact h

theorem dictComp_aux_len (granules : List (String × List String)) :
    ∀ (names : List String) (acc : List (String × List String)),
      names.Nodup →
      (∀ n ∈ names, (lookA granules n).isSome) →
      (∀ n ∈ names, lookA acc n = none) →
      (names.foldl
        (fun acc n =>
          match lookA granules n with
          | some urls => updateA acc n urls
          | none => acc) acc).length = acc.length + names.length := by
  intro names
  induction names with
  | nil => intro acc _ _ _; simp
  | cons n ns ih =>
    intro acc hnd hfound hacc
    rcases hlk : lookA granules n with _ | urls
    · have := hfound n (List.mem_cons_self _ _)
      rw [hlk] at this
      cases this
    · simp only [List.foldl_cons, hlk]
      have hup : updateA acc n urls = acc ++ [(n, urls)] :=
        updateA_of_lookA_none acc n urls (hacc n (List.mem_cons_self _ _))
      rw [hup]
      rw [ih (acc ++ [(n, urls)]) (List.nodup_cons.mp hnd).2
        (fun x hx => hfound x (List.mem_cons_of_mem _ hx))
        (fun x hx => by
          have hxn : x ≠ n := fun e => (List.nodup_cons.mp hnd).1 (e ▸ hx)
          rw [lookA_append_sing_ne _ _ _ _ hxn]
          exact hacc x (List.mem_cons_of_mem _ hx))]
      simp only [List.length_append, List.length_cons, List.length_nil]
      omega

theorem dictComp_length (names : List String) (granules : List (String × List String))
    (hnd : names.Nodup) (hfound : ∀ n ∈ names, (lookA granules n).isSome) :
    (dictComp names granules).length = names.length := by
  have := dictComp_aux_len granules names [] hnd hfound (fun n _ => rfl)
  simpa [dictComp] using this

theorem schedStep_all_completed (env : Env) (l : List (String × List String)) :
    ∀ (a b : Nat) (s : St),
      (∀ p ∈ l, p.1 ∈ s.completed ∧ p.2 ≠ []) →
      l.foldl (schedStep env) ((a, b), s) = ((a + l.length, b), s) := by
  induction l with
  | nil => intro a b s _; simp
  | cons p ps ih =>
    intro a b s hall
    obtain ⟨hc, hu⟩ := hall p (List.mem_cons_self _ _)
    have hstep : schedStep env ((a, b), s) p = ((a + 1, b), s) := by
      simp [schedStep, downloadGranule_skip env p.1 p.2 s hu hc]
    rw [List.foldl_cons, hstep,
      ih (a + 1) b s (fun q hq => hall q (List.mem_cons_of_mem _ hq))]
    simp only [List.length_cons, Prod.mk.injEq, and_true]
    omega

/-- C9: when `missing_granules.json` already exists,
`check_missing_granules` loads the missing list from it and the checking
phase leaves the whole state — completed set, error map, and both
persisted state files — unchanged (eviction from the completed set
happens only on the recomputation branch); consequently granules listed
in the side file can still be in the completed set, and a heal
re-submission then reports them all as downloaded, with the state and
the network-request trace unchanged — success without downloading. -/
theorem c9_side_file (env : Env) (mw : Nat) (c : String)
    (granules : List (String × List String))
    (rest : List (String × List (String × List String))) (s : St)
    (lst : List String) (hmf : s.missingFile = some lst) :
    checkMissing env mw ((c, granules) :: rest) false s
      = (⟨granules.length, lst.length, 0, 0⟩, s) ∧
    (s.authed = true → lst.Nodup →
      (∀ n ∈ lst, n ∈ s.completed ∧ ∃ urls, lookA granules n = some urls ∧ urls ≠ []) →
      checkMissing env mw ((c, granules) :: rest) true s
        = (⟨granules.length, lst.length, lst.length, 0⟩, s)) := by
  constructor
  · simp [checkMissing, hmf]
  · intro hauth hnd hall
    by_cases hl : lst = []
    · subst hl
      simp [checkMissing, hmf]
    · have hfound : ∀ n ∈ lst, (lookA granules n).isSome := by
        intro n hn
        obtain ⟨-, urls, hu, -⟩ := hall n hn
        rw [hu]
        rfl
      have hlen : (dictComp lst granules).length = lst.length :=
        dictComp_length lst granules hnd hfound
      have hmem : ∀ p ∈ dictComp lst granules, p.1 ∈ s.completed ∧ p.2 ≠ [] := by
        intro p hp
        obtain ⟨hn, hlk⟩ := dictComp_mem lst granules p hp
        obtain ⟨hcm, urls, hu, hune⟩ := hall p.1 hn
        rw [hu] at hlk
        injection hlk with h2
        exact ⟨hcm, h2 ▸ hune⟩
      have hseq : { s with authed := true } = s := by
        obtain ⟨f1, f2, f3, f4, f5, f6, f7, f8, f9⟩ := s
        dsimp only at hauth
        subst hauth
        rfl
      have hgne : dictComp lst granules ≠ [] := by
        intro h0
        rw [h0] at hlen
        exact hl (List.length_eq_zero.mp hlen.symm)
      have hcond : ¬ (¬ s.authed ∧ ¬ env.authWorks) := by simp [hauth]
      have hdm : downloadMany env mw (dictComp lst granules) s
          = (⟨lst.length, lst.length, 0, false⟩, s) := by
        simp only [downloadMany, if_neg hgne, if_neg hcond, hseq]
        rw [schedStep_all_completed env (dictComp lst granules) 0 0 s hmem]
        simp [hlen]
      simp [checkMissing, hmf, hl, hdm]

/-- C9 (witness). -/
theorem c9_witness :
    checkMissing envOne 4 payloadX false stSide = (⟨2, 1, 0, 0⟩, stSide) ∧
    checkMissing envOne 4 payloadX true stSide = (⟨2, 1, 1, 0⟩, stSide) := by
  have h := c9_side_file envOne 4 "X" [("g", ["h/f"]), ("h2", ["h/z"])] [] stSide
    ["g"] rfl
  refine ⟨h.1, h.2 rfl (by decide) ?_⟩
  intro n hn
  rw [List.mem_singleton] at hn
  subst hn
  exact ⟨List.mem_singleton.mpr rfl, ["h/f"], rfl, by simp⟩

end EDD
